import Mathlib

/-!
Verification development for the WatchHer desktop monitoring application
(`src/apps/watchher_desktop.py`).  The definitions below are a shallow
embedding of the aggregation / heatmap / statistics / export core of that
program:

* application state (`AppState`) mirrors the mutable fields of
  `WatchHerDesktopApp` that the aggregation core touches;
* the risk-zone map (`defaultdict(int)` keyed by grid pairs) is embedded as
  an association list in insertion order, which matches CPython dict
  semantics (updates keep the key position, new keys append at the end);
* `update_statistics`, `update_risk_zones` and `process_frame` follow the
  Python functions line by line.  Python mutates the state in place and
  `process_frame` wraps everything in a `try/except` that logs and keeps
  the already-applied mutations, so the fallible updates are embedded as
  `AppState × Bool`: the returned state is the state at the point where the
  exception (if any) was raised, and the flag records success;
* values coming from the external analyzer are dynamically typed.  The
  safety-analysis fields that the code calls `len(...)` on are embedded as
  `Option ℕ` — `some n` models a list of length `n`, `none` models a
  non-list value stored under the key, on which `len` raises `TypeError`
  (`dict.get` returns the stored value, not the default, when the key is
  present);
* strings are embedded as lists of character codes (`List ℕ`), so the
  export key `f"{gx},{gy}"` is decimal digits (code 48 + d) around a comma
  (code 44).
-/

/-- Overall threat level reported by the analyzer
(`safety_analysis['overall_threat_level']`). -/
inductive ThreatLevel where
  | SAFE
  | LOW
  | MODERATE
  | HIGH
  | CRITICAL
deriving DecidableEq

/-- One person detection as consumed by the aggregation core: the bounding
box `[x1, y1, x2, y2]` (pixel coordinates), whether
`person.get('gender') == 'woman'`, and whether
`person.get('has_harmful_object')` is truthy. -/
structure Person where
  x1 : ℕ
  y1 : ℕ
  x2 : ℕ
  y2 : ℕ
  isWoman : Bool
  has_harmful_object : Bool
deriving DecidableEq

/-- The analyzer's safety-analysis dict.  The four incident fields are the
values stored under the keys `lone_women`, `surrounded_women`,
`women_in_danger`, `distress_signals`: `some n` is a list of length `n`
(only lengths are ever consumed), `none` is a non-list value on which
`len` raises.  `overall_threat_level = none` models an absent key, for
which `dict.get` yields the default `'SAFE'`. -/
structure SafetyAnalysis where
  lone_women : Option ℕ
  surrounded_women : Option ℕ
  women_in_danger : Option ℕ
  distress_signals : Option ℕ
  overall_threat_level : Option ThreatLevel
deriving DecidableEq

/-- One entry of `risk_history` (the wall-clock `timestamp` field is
omitted: no property below depends on it). -/
structure RiskEvent where
  threat_level : ThreatLevel
  women_count : ℕ
  safety_alerts : ℕ
deriving DecidableEq

/-- The mutable aggregation state of `WatchHerDesktopApp`.  `risk_zones`
is the `defaultdict(int)` keyed by `(grid_x, grid_y)`, embedded as an
association list in dict insertion order. -/
structure AppState where
  total_women_monitored : ℕ
  total_safety_alerts : ℕ
  lone_women_incidents : ℕ
  surrounded_women_incidents : ℕ
  distress_signals_detected : ℕ
  current_threat_level : ThreatLevel
  risk_zones : List ((ℕ × ℕ) × ℕ)
  risk_history : List RiskEvent
  frames_processed : ℕ
deriving DecidableEq

/-- `self.heatmap_grid_size = 50`. -/
def heatmap_grid_size : ℕ := 50

/-- Value stored under key `k` in the embedded dict, if present. -/
def getScore (m : List ((ℕ × ℕ) × ℕ)) (k : ℕ × ℕ) : Option ℕ :=
  match m with
  | [] => none
  | kv :: rest => if kv.1 = k then some kv.2 else getScore rest k

/-- Score of cell `k`, defaulting to `0` — the read a `defaultdict(int)`
performs before `+=`. -/
def getScoreD (m : List ((ℕ × ℕ) × ℕ)) (k : ℕ × ℕ) : ℕ :=
  (getScore m k).getD 0

/-- `self.risk_zones[k] += v` on the `defaultdict(int)`: a present key is
updated in place, an absent key is appended with initial value `0 + v`. -/
def addTo (m : List ((ℕ × ℕ) × ℕ)) (k : ℕ × ℕ) (v : ℕ) : List ((ℕ × ℕ) × ℕ) :=
  match m with
  | [] => [(k, v)]
  | kv :: rest => if kv.1 = k then (kv.1, kv.2 + v) :: rest else kv :: addTo rest k v

/-- Grid cell of a detection: `center = (x1 + x2) // 2` (same for y),
then `center // self.heatmap_grid_size`. -/
def gridOf (p : Person) : ℕ × ℕ :=
  (((p.x1 + p.x2) / 2) / heatmap_grid_size, ((p.y1 + p.y2) / 2) / heatmap_grid_size)

/-- Per-detection risk contribution: `risk_level = 1`, `+= 2` when the
person is a woman, `+= 10` when the person has a harmful object. -/
def riskOf (p : Person) : ℕ :=
  1 + (if p.isWoman then 2 else 0) + (if p.has_harmful_object then 10 else 0)

/-- The detection loop of `update_risk_zones` (lines 517–537): each person
adds `riskOf` to the cell containing its bbox center. -/
def applyDetections (people : List Person) (m : List ((ℕ × ℕ) × ℕ)) :
    List ((ℕ × ℕ) × ℕ) :=
  people.foldl (fun m p => addTo m (gridOf p) (riskOf p)) m

/-- `safety_analysis.get('overall_threat_level', 'SAFE')`. -/
def threatOf (sa : SafetyAnalysis) : ThreatLevel :=
  sa.overall_threat_level.getD ThreatLevel.SAFE

/-- The ambient-broadcast loop of `update_risk_zones` (lines 540–548): when
the threat level is HIGH or CRITICAL, every cell with
`x ∈ range(w // grid)` and `y ∈ range(h // grid)` gains `+5` (CRITICAL)
or `+2` (HIGH). -/
def applyBroadcast (t : ThreatLevel) (h w : ℕ) (m : List ((ℕ × ℕ) × ℕ)) :
    List ((ℕ × ℕ) × ℕ) :=
  if t = ThreatLevel.HIGH ∨ t = ThreatLevel.CRITICAL then
    (List.range (w / heatmap_grid_size)).foldl
      (fun m x =>
        (List.range (h / heatmap_grid_size)).foldl
          (fun m y => addTo m (x, y) (if t = ThreatLevel.CRITICAL then 5 else 2)) m)
      m
  else m

/-- `deque(maxlen=cap).append`: append at the tail, evicting the oldest
(leftmost) entry when full.  The list is oldest-first. -/
def histAppend (cap : ℕ) (xs : List α) (x : α) : List α :=
  if xs.length < cap then xs ++ [x] else xs.tail ++ [x]

/-- `update_risk_zones(self, people, safety_analysis, frame_shape)`
(lines 512–558) with `h, w = frame_shape[:2]`.  Returns the state at the
point execution stopped, plus a success flag: the history-event dict
literal calls `len` on three analysis fields, so if any of them is not a
list the append raises after `risk_zones` has already been mutated. -/
def update_risk_zones (s : AppState) (people : List Person) (sa : SafetyAnalysis)
    (h w : ℕ) : AppState × Bool :=
  let m := applyDetections people s.risk_zones
  let t := threatOf sa
  let m := applyBroadcast t h w m
  let s1 := { s with risk_zones := m }
  match sa.lone_women, sa.surrounded_women, sa.women_in_danger with
  | some lw, some sw, some wd =>
    ({ s1 with
        risk_history := histAppend 1000 s1.risk_history
          { threat_level := t
            women_count := (people.filter (fun p => p.isWoman)).length
            safety_alerts := lw + sw + wd } }, true)
  | _, _, _ => (s1, false)

/-- `update_statistics(self, people, weapons, safety_analysis)`
(lines 440–473).  `total_women_monitored` is incremented first
(line 444); the four `len(safety_analysis.get(...))` calls (lines
447–450) happen before any further mutation, so a non-list field aborts
with only the women counter changed. -/
def update_statistics (s : AppState) (people : List Person) (sa : SafetyAnalysis) :
    AppState × Bool :=
  let women_count := (people.filter (fun p => p.isWoman)).length
  let s := { s with total_women_monitored := s.total_women_monitored + women_count }
  match sa.lone_women, sa.surrounded_women, sa.women_in_danger, sa.distress_signals with
  | some lw, some sw, some wd, some ds =>
    ({ s with
        lone_women_incidents := s.lone_women_incidents + lw
        surrounded_women_incidents := s.surrounded_women_incidents + sw
        distress_signals_detected := s.distress_signals_detected + ds
        total_safety_alerts := s.total_safety_alerts + (lw + sw + wd + ds)
        current_threat_level := threatOf sa }, true)
  | _, _, _, _ => (s, false)

/-- Display rescaling of one coordinate in `process_frame`:
`int(bbox[i] * scale)` with `scale_x = 800 / 640 = scale_y = 600 / 480
= 1.25`.  For the machine-integer coordinates in range the float product
`v * 1.25` is exact and `int` truncates, so this is `v * 5 / 4` on ℕ. -/
def scaleCoord (v : ℕ) : ℕ := v * 5 / 4

/-- Rescale a detection's bbox from the processing resolution (640×480) to
the display resolution (800×600); the classification flags are untouched. -/
def scalePerson (p : Person) : Person :=
  { p with
      x1 := scaleCoord p.x1
      y1 := scaleCoord p.y1
      x2 := scaleCoord p.x2
      y2 := scaleCoord p.y2 }

/-- `process_frame(self, frame)` (lines 393–438), restricted to its effect
on the aggregation state.  The argument models the analyzer's output:
`none` is a failure in decode / `analyze_frame` / bbox rescaling / drawing
— everything before the first mutation of shared state.  On `some`, the
people boxes are rescaled to display size, then `update_statistics` runs,
then `update_risk_zones` with `display_frame.shape` = (600, 800), then
the frame counter is incremented.  An exception anywhere is caught by the
enclosing `try/except` (line 437), which keeps all mutations already made
and skips the rest of the body. -/
def process_frame (s : AppState)
    (result : Option (List Person × List Person × SafetyAnalysis)) : AppState :=
  match result with
  | none => s
  | some (people, _weapons, sa) =>
    let people := people.map scalePerson
    let (s, ok) := update_statistics s people sa
    if ¬ ok then s else
    let (s, ok) := update_risk_zones s people sa 600 800
    if ¬ ok then s else
    { s with frames_processed := s.frames_processed + 1 }

/-- Maximum of the stored scores, `max(self.risk_zones.values())` for a
non-empty map (`0` for the empty map, which the callers guard against). -/
def maxVals (m : List ((ℕ × ℕ) × ℕ)) : ℕ :=
  match m with
  | [] => 0
  | kv :: rest => max kv.2 (maxVals rest)

/-- Python `int()` of a nonnegative rational: truncation toward zero,
which on nonnegative arguments is the floor. -/
def pyInt (x : ℚ) : ℕ := (Int.floor x).toNat

/-- The three-segment gradient of `update_heatmap` (lines 588–597) as a
pure function from the normalized risk to an (r, g, b) byte triple:
`normalized < 0.3` gives `(int(255·n·3), 255, 0)`;
`0.3 ≤ n < 0.7` gives `(255, int(255·(1 − (n−0.3)/0.4)), 0)`;
otherwise `(int(255·(1 − ((n−0.7)/0.3)·0.5)), 0, 0)`.
The Python arithmetic is IEEE double; at every input considered below the
value being truncated is far from an integer boundary, so the exact
rational model yields the same bytes. -/
def colorOf (n : ℚ) : ℕ × ℕ × ℕ :=
  if n < 3 / 10 then
    (pyInt (255 * n * 3), 255, 0)
  else if n < 7 / 10 then
    (255, pyInt (255 * (1 - (n - 3 / 10) / (4 / 10))), 0)
  else
    (pyInt (255 * (1 - ((n - 7 / 10) / (3 / 10)) * (1 / 2))), 0, 0)

/-- One rendered heatmap cell: grid coordinates, normalized risk, color. -/
structure HeatCell where
  cell : ℕ × ℕ
  normalized : ℚ
  color : ℕ × ℕ × ℕ
deriving DecidableEq

/-- Result of `update_heatmap`: either the "No risk data available"
placeholder, or the rendered in-bounds cells. -/
inductive HeatmapOutput where
  | noData
  | cells (l : List HeatCell)
deriving DecidableEq

/-- `update_heatmap(self)` (lines 560–621) restricted to the data it
computes per cell.  An empty map draws the placeholder text and returns
before any division.  Otherwise `max_risk = max(values)` and every stored
cell with `grid_x < 20` and `grid_y < 15` is drawn with
`normalized = min(risk / max_risk, 1.0)` and the gradient color.
(The division is written in ℚ, where `x / 0 = 0`; in Python a map whose
maximum is `0` would raise `ZeroDivisionError` at the first in-bounds
cell, but every reachable map has scores ≥ 1 — see the map-positivity
invariant below — so the rational model agrees on all maps considered.) -/
def update_heatmap (m : List ((ℕ × ℕ) × ℕ)) : HeatmapOutput :=
  match m with
  | [] => HeatmapOutput.noData
  | _ :: _ =>
    HeatmapOutput.cells <|
      m.filterMap fun kv =>
        if kv.1.1 < 20 ∧ kv.1.2 < 15 then
          let normalized := min ((kv.2 : ℚ) / (maxVals m : ℚ)) 1
          some { cell := kv.1, normalized := normalized, color := colorOf normalized }
        else none

/-- Decimal digit list (codes `48 + d`) of a natural number, exactly
`str(n)` for a nonnegative Python int: most significant digit first, a
single `'0'` for zero, no leading zeros otherwise. -/
def natRepr (n : ℕ) : List ℕ :=
  if h : n < 10 then [48 + n]
  else natRepr (n / 10) ++ [48 + n % 10]
decreasing_by
  exact Nat.div_lt_self (by omega) (by norm_num)

/-- Character codes of the export key `f"{k[0]},{k[1]}"`
(44 is the comma). -/
def keyChars (k : ℕ × ℕ) : List ℕ :=
  natRepr k.1 ++ [44] ++ natRepr k.2

/-- Decimal value of a digit-code list (inverse of `natRepr`). -/
def decNat (cs : List ℕ) : ℕ :=
  cs.foldl (fun a c => a * 10 + (c - 48)) 0

/-- Split a character-code list at its first comma (code 44). -/
def splitComma (cs : List ℕ) : List ℕ × List ℕ :=
  match cs with
  | [] => ([], [])
  | c :: rest =>
    if c = 44 then ([], rest)
    else
      let p := splitComma rest
      (c :: p.1, p.2)

/-- Parse a `"<gx>,<gy>"` key back into the grid pair. -/
def parseKey (cs : List ℕ) : ℕ × ℕ :=
  let p := splitComma cs
  (decNat p.1, decNat p.2)

/-- The `risk_zones` section built by `export_heatmap` (line 638):
`{f"{k[0]},{k[1]}": v for k, v in self.risk_zones.items()}`, one
`(key, score)` pair per stored map entry, in iteration order. -/
def exportRiskZones (m : List ((ℕ × ℕ) × ℕ)) : List (List ℕ × ℕ) :=
  m.map fun kv => (keyChars kv.1, kv.2)

/-! ### Concrete example data used by the worked examples below -/

/-- The aggregation state right after `__init__`: all counters zero, empty
map and history. -/
def emptyState : AppState :=
  { total_women_monitored := 0
    total_safety_alerts := 0
    lone_women_incidents := 0
    surrounded_women_incidents := 0
    distress_signals_detected := 0
    current_threat_level := ThreatLevel.SAFE
    risk_zones := []
    risk_history := []
    frames_processed := 0 }

/-- A well-typed safety analysis with empty incident lists and SAFE level. -/
def saSafeLists : SafetyAnalysis :=
  ⟨some 0, some 0, some 0, some 0, some ThreatLevel.SAFE⟩

/-- A well-typed safety analysis with empty incident lists and CRITICAL
level. -/
def saCritLists : SafetyAnalysis :=
  ⟨some 0, some 0, some 0, some 0, some ThreatLevel.CRITICAL⟩

/-- A safety analysis whose `lone_women` value is not a list (e.g. `None`),
so `len(safety_analysis.get('lone_women', []))` raises `TypeError`. -/
def saNoneLone : SafetyAnalysis :=
  ⟨none, some 0, some 0, some 0, some ThreatLevel.SAFE⟩

/-- A well-typed analysis with 1 lone, 2 surrounded, 3 in danger and
4 distress signals. -/
def saDistress : SafetyAnalysis :=
  ⟨some 1, some 2, some 3, some 4, some ThreatLevel.MODERATE⟩

/-- A plain person detection (bbox center (5, 5), cell (0, 0)). -/
def personPlain : Person := ⟨0, 0, 10, 10, false, false⟩

/-- A woman detection in the same cell. -/
def personWoman : Person := ⟨0, 0, 10, 10, true, false⟩

/-- A woman detection with a harmful object in the same cell. -/
def personWomanArmed : Person := ⟨0, 0, 10, 10, true, true⟩

/-- A detection whose processing-resolution center (40, 40) lies in cell
(0, 0), while its display-rescaled center (50, 50) lies in cell (1, 1). -/
def personAt40 : Person := ⟨40, 40, 40, 40, false, false⟩

/-! ### Lemmas about the embedded dict operations -/

theorem getScore_addTo_self (m : List ((ℕ × ℕ) × ℕ)) (k : ℕ × ℕ) (v : ℕ) :
    getScore (addTo m k v) k = some (getScoreD m k + v) := by
  induction m with
  | nil => simp [addTo, getScore, getScoreD]
  | cons kv rest ih =>
    by_cases h : kv.1 = k
    · simp [addTo, getScore, getScoreD, h]
    · simp [addTo, getScore, getScoreD, h, ih]

theorem getScore_addTo_ne (m : List ((ℕ × ℕ) × ℕ)) (k k' : ℕ × ℕ) (v : ℕ)
    (hne : k' ≠ k) : getScore (addTo m k v) k' = getScore m k' := by
  induction m with
  | nil =>
    simp only [addTo, getScore]
    rw [if_neg fun h => hne h.symm]
  | cons kv rest ih =>
    by_cases h : kv.1 = k
    · have hk : ¬ k = k' := fun hh => hne hh.symm
      simp [addTo, getScore, h, hk]
    · by_cases h' : kv.1 = k'
      · simp [addTo, getScore, h, h', hne]
      · simp [addTo, getScore, h, h', ih]

theorem getScoreD_addTo_self (m : List ((ℕ × ℕ) × ℕ)) (k : ℕ × ℕ) (v : ℕ) :
    getScoreD (addTo m k v) k = getScoreD m k + v := by
  simp [getScoreD, getScore_addTo_self]

theorem getScoreD_addTo_ne (m : List ((ℕ × ℕ) × ℕ)) (k k' : ℕ × ℕ) (v : ℕ)
    (hne : k' ≠ k) : getScoreD (addTo m k v) k' = getScoreD m k' := by
  simp [getScoreD, getScore_addTo_ne m k k' v hne]

/-- Effect of the inner broadcast loop (`for y in range(n)`) on one cell. -/
theorem getScoreD_innerBroadcast (x inc : ℕ) (n : ℕ) (m : List ((ℕ × ℕ) × ℕ))
    (a b : ℕ) :
    getScoreD ((List.range n).foldl (fun m y => addTo m (x, y) inc) m) (a, b) =
      getScoreD m (a, b) + (if a = x ∧ b < n then inc else 0) := by
  induction n generalizing m with
  | zero => simp
  | succ n ih =>
    rw [List.range_succ, List.foldl_append, List.foldl_cons, List.foldl_nil]
    by_cases hax : a = x
    · by_cases hbn : b = n
      · subst hax; subst hbn
        rw [getScoreD_addTo_self, ih]
        split_ifs <;> omega
      · rw [getScoreD_addTo_ne _ _ _ _ (by simp [Prod.ext_iff]; omega), ih]
        split_ifs <;> omega
    · rw [getScoreD_addTo_ne _ _ _ _ (by simp [Prod.ext_iff]; omega), ih]
      split_ifs <;> omega

/-- Effect of the full broadcast double loop on one cell. -/
theorem getScoreD_outerBroadcast (inc nx ny : ℕ) (m : List ((ℕ × ℕ) × ℕ))
    (a b : ℕ) :
    getScoreD
      ((List.range nx).foldl
        (fun m x => (List.range ny).foldl (fun m y => addTo m (x, y) inc) m) m)
      (a, b) =
      getScoreD m (a, b) + (if a < nx ∧ b < ny then inc else 0) := by
  induction nx generalizing m with
  | zero => simp
  | succ nx ih =>
    rw [List.range_succ, List.foldl_append, List.foldl_cons, List.foldl_nil,
        getScoreD_innerBroadcast, ih]
    split_ifs <;> omega

/-- The risk map produced by `update_risk_zones` is the detection fold
followed by the ambient broadcast, whether or not the trailing history
append succeeds. -/
theorem risk_zones_of_update (s : AppState) (people : List Person)
    (sa : SafetyAnalysis) (h w : ℕ) :
    (update_risk_zones s people sa h w).1.risk_zones =
      applyBroadcast (threatOf sa) h w (applyDetections people s.risk_zones) := by
  unfold update_risk_zones
  rcases sa.lone_women with _ | lw <;>
    rcases sa.surrounded_women with _ | sw <;>
      rcases sa.women_in_danger with _ | wd <;> rfl

/-- Per-cell effect of `applyBroadcast` for an elevated threat level. -/
theorem getScoreD_applyBroadcast (t : ThreatLevel) (h w : ℕ)
    (m : List ((ℕ × ℕ) × ℕ)) (a b : ℕ)
    (ht : t = ThreatLevel.HIGH ∨ t = ThreatLevel.CRITICAL) :
    getScoreD (applyBroadcast t h w m) (a, b) =
      getScoreD m (a, b) +
        (if a < w / heatmap_grid_size ∧ b < h / heatmap_grid_size then
          (if t = ThreatLevel.CRITICAL then 5 else 2) else 0) := by
  rw [applyBroadcast, if_pos ht, getScoreD_outerBroadcast]

/-! ### Lemmas about the bounded history -/

/-- Running a bounded-deque fold from empty keeps exactly the trailing
`cap` elements (all of them while fewer than `cap` have been appended). -/
theorem histRun_eq {α : Type} (cap : ℕ) (hcap : 0 < cap) (es : List α) :
    es.foldl (histAppend cap) [] = es.drop (es.length - cap) := by
  induction es using List.reverseRecOn with
  | nil => simp
  | append_singleton es x ih =>
    rw [List.foldl_append, List.foldl_cons, List.foldl_nil, ih]
    by_cases h : es.length < cap
    · have h0 : es.length - cap = 0 := by omega
      have h1 : (es ++ [x]).length - cap = 0 := by simp; omega
      rw [h0, List.drop_zero, h1, List.drop_zero, histAppend,
        if_pos (by simpa using h)]
    · have hlen : (es.drop (es.length - cap)).length = cap := by
        rw [List.length_drop]; omega
      rw [histAppend, if_neg (by omega), List.tail_drop]
      have h2 : (es ++ [x]).length - cap = (es.length - cap) + 1 := by
        simp; omega
      rw [h2, List.drop_append_of_le_length (by omega)]

/-- The newest event is always at the tail of the bounded history. -/
theorem histAppend_getLast {α : Type} (cap : ℕ) (xs : List α) (x : α) :
    (histAppend cap xs x).getLast? = some x := by
  rw [histAppend]
  split_ifs <;> simp

/-! ### Success-path equations for the fallible updates -/

/-- `update_statistics` when all four analysis fields are lists. -/
theorem update_statistics_some_eq (s : AppState) (people : List Person)
    (sa : SafetyAnalysis) (lw sw wd ds : ℕ) (h1 : sa.lone_women = some lw)
    (h2 : sa.surrounded_women = some sw) (h3 : sa.women_in_danger = some wd)
    (h4 : sa.distress_signals = some ds) :
    update_statistics s people sa =
      ({ s with
          total_women_monitored :=
            s.total_women_monitored + (people.filter (fun p => p.isWoman)).length
          lone_women_incidents := s.lone_women_incidents + lw
          surrounded_women_incidents := s.surrounded_women_incidents + sw
          distress_signals_detected := s.distress_signals_detected + ds
          total_safety_alerts := s.total_safety_alerts + (lw + sw + wd + ds)
          current_threat_level := threatOf sa }, true) := by
  rw [update_statistics, h1, h2, h3, h4]

/-- `update_statistics` when the `lone_women` field is not a list: only the
women counter has been incremented when `len` raises. -/
theorem update_statistics_none_eq (s : AppState) (people : List Person)
    (sa : SafetyAnalysis) (h1 : sa.lone_women = none) :
    update_statistics s people sa =
      ({ s with
          total_women_monitored :=
            s.total_women_monitored + (people.filter (fun p => p.isWoman)).length },
        false) := by
  rw [update_statistics, h1]

/-- `update_risk_zones` when the three fields read by the history event are
lists. -/
theorem update_risk_zones_some_eq (s : AppState) (people : List Person)
    (sa : SafetyAnalysis) (h w lw sw wd : ℕ) (h1 : sa.lone_women = some lw)
    (h2 : sa.surrounded_women = some sw) (h3 : sa.women_in_danger = some wd) :
    update_risk_zones s people sa h w =
      ({ s with
          risk_zones :=
            applyBroadcast (threatOf sa) h w (applyDetections people s.risk_zones)
          risk_history := histAppend 1000 s.risk_history
            { threat_level := threatOf sa
              women_count := (people.filter (fun p => p.isWoman)).length
              safety_alerts := lw + sw + wd } }, true) := by
  rw [update_risk_zones, h1, h2, h3]

/-- `process_frame` on an analyzable frame with a well-typed safety
analysis: the whole per-frame contribution in one equation. -/
theorem process_frame_some_eq (s : AppState) (people weapons : List Person)
    (sa : SafetyAnalysis) (lw sw wd ds : ℕ) (h1 : sa.lone_women = some lw)
    (h2 : sa.surrounded_women = some sw) (h3 : sa.women_in_danger = some wd)
    (h4 : sa.distress_signals = some ds) :
    process_frame s (some (people, weapons, sa)) =
      { total_women_monitored :=
          s.total_women_monitored +
            ((people.map scalePerson).filter (fun p => p.isWoman)).length
        total_safety_alerts := s.total_safety_alerts + (lw + sw + wd + ds)
        lone_women_incidents := s.lone_women_incidents + lw
        surrounded_women_incidents := s.surrounded_women_incidents + sw
        distress_signals_detected := s.distress_signals_detected + ds
        current_threat_level := threatOf sa
        risk_zones :=
          applyBroadcast (threatOf sa) 600 800
            (applyDetections (people.map scalePerson) s.risk_zones)
        risk_history := histAppend 1000 s.risk_history
          { threat_level := threatOf sa
            women_count :=
              ((people.map scalePerson).filter (fun p => p.isWoman)).length
            safety_alerts := lw + sw + wd }
        frames_processed := s.frames_processed + 1 } := by
  simp only [process_frame,
    update_statistics_some_eq _ _ _ lw sw wd ds h1 h2 h3 h4,
    update_risk_zones_some_eq _ _ _ _ _ lw sw wd h1 h2 h3]
  simp

/-! ### Positivity of stored scores -/

/-- A fold preserves any invariant its step preserves. -/
theorem foldl_preserve {β : Type} (P : List ((ℕ × ℕ) × ℕ) → Prop)
    (f : List ((ℕ × ℕ) × ℕ) → β → List ((ℕ × ℕ) × ℕ))
    (hf : ∀ m x, P m → P (f m x)) :
    ∀ (l : List β) (m : List ((ℕ × ℕ) × ℕ)), P m → P (l.foldl f m) := by
  intro l
  induction l with
  | nil => intro m hm; exact hm
  | cons x rest ih => intro m hm; exact ih (f m x) (hf m x hm)

/-- `+=` of a positive amount keeps every stored score positive. -/
theorem addTo_pos (m : List ((ℕ × ℕ) × ℕ)) (k : ℕ × ℕ) (v : ℕ) (hv : 1 ≤ v)
    (hm : ∀ kv ∈ m, 1 ≤ kv.2) : ∀ kv ∈ addTo m k v, 1 ≤ kv.2 := by
  induction m with
  | nil =>
    intro kv hkv
    rw [addTo, List.mem_singleton] at hkv
    subst hkv
    exact hv
  | cons kv0 rest ih =>
    intro kv hkv
    rw [addTo] at hkv
    by_cases h : kv0.1 = k
    · rw [if_pos h] at hkv
      rcases List.mem_cons.mp hkv with h' | h'
      · have := hm kv0 (List.mem_cons_self _ _)
        subst h'
        simp only
        omega
      · exact hm kv (List.mem_cons_of_mem _ h')
    · rw [if_neg h] at hkv
      rcases List.mem_cons.mp hkv with h' | h'
      · subst h'
        exact hm kv (List.mem_cons_self _ _)
      · exact ih (fun kv hkv => hm kv (List.mem_cons_of_mem _ hkv)) kv h'

/-! ### Lemmas about the export key encoding -/

theorem decNat_append (l : List ℕ) (c : ℕ) :
    decNat (l ++ [c]) = decNat l * 10 + (c - 48) := by
  simp [decNat, List.foldl_append]

theorem decNat_natRepr (n : ℕ) : decNat (natRepr n) = n := by
  induction n using Nat.strong_induction_on with
  | _ n ih =>
    rw [natRepr]
    by_cases h : n < 10
    · rw [dif_pos h]
      simp only [decNat, List.foldl_cons, List.foldl_nil]
      omega
    · rw [dif_neg h, decNat_append,
        ih (n / 10) (Nat.div_lt_self (by omega) (by norm_num))]
      omega

/-- Every character of a rendered decimal number is a digit (so never the
comma, code 44). -/
theorem natRepr_ge_48 (n : ℕ) : ∀ c ∈ natRepr n, 48 ≤ c := by
  induction n using Nat.strong_induction_on with
  | _ n ih =>
    rw [natRepr]
    by_cases h : n < 10
    · rw [dif_pos h]
      intro c hc
      rw [List.mem_singleton] at hc
      omega
    · rw [dif_neg h]
      intro c hc
      rcases List.mem_append.mp hc with h' | h'
      · exact ih (n / 10) (Nat.div_lt_self (by omega) (by norm_num)) c h'
      · rw [List.mem_singleton] at h'
        omega

theorem splitComma_append (l1 l2 : List ℕ) (hl : ∀ c ∈ l1, c ≠ 44) :
    splitComma (l1 ++ 44 :: l2) = (l1, l2) := by
  induction l1 with
  | nil => simp [splitComma]
  | cons c rest ih =>
    have hc : c ≠ 44 := hl c (List.mem_cons_self _ _)
    simp only [List.cons_append, splitComma, if_neg hc, List.append_eq]
    rw [ih (fun c hc => hl c (List.mem_cons_of_mem _ hc))]

/-- Parsing an export key recovers the grid pair exactly. -/
theorem parseKey_keyChars (k : ℕ × ℕ) : parseKey (keyChars k) = k := by
  rw [parseKey, keyChars, List.append_assoc, List.singleton_append,
    splitComma_append _ _ (fun c hc => by have := natRepr_ge_48 k.1 c hc; omega)]
  simp [decNat_natRepr]

/-! ### The claims -/

/-- Claim C1: every detection processed by the risk-zone update contributes
exactly 1 (base) plus 2 if in the protected category (gender `woman`) plus
10 if it has a harmful object, to the grid cell containing its center; in
particular a plain (1), a protected-category (3) and a
protected-category-with-harmful-object (13) detection landing in the same
cell give that cell a total of 17. -/
theorem spec_c1_detection_contribution :
    (∀ (m : List ((ℕ × ℕ) × ℕ)) (p : Person),
        getScoreD (applyDetections [p] m) (gridOf p) =
          getScoreD m (gridOf p) +
            (1 + (if p.isWoman then 2 else 0) +
              (if p.has_harmful_object then 10 else 0))) ∧
    getScore (update_risk_zones emptyState
        [personPlain, personWoman, personWomanArmed]
        saSafeLists 480 640).1.risk_zones (0, 0) = some 17 := by
  constructor
  · intro m p
    simp only [applyDetections, List.foldl_cons, List.foldl_nil]
    rw [getScoreD_addTo_self]
    rfl
  · decide

/-- Claim C2: on a HIGH or CRITICAL frame, every cell with
`gx < frameWidth / cellSize` and `gy < frameHeight / cellSize` gains a flat
+2 (HIGH) or +5 (CRITICAL) on top of whatever the detections contributed;
with frameWidth 640, frameHeight 480, cellSize 50 and a CRITICAL
assessment and zero detections, exactly the 12 × 9 = 108 visible cells
each end up with score 5. -/
theorem spec_c2_ambient_broadcast (s : AppState) (people : List Person)
    (sa : SafetyAnalysis) (h w x y : ℕ)
    (hx : x < w / heatmap_grid_size) (hy : y < h / heatmap_grid_size) :
    ((threatOf sa = ThreatLevel.CRITICAL →
        getScoreD (update_risk_zones s people sa h w).1.risk_zones (x, y) =
          getScoreD (applyDetections people s.risk_zones) (x, y) + 5) ∧
      (threatOf sa = ThreatLevel.HIGH →
        getScoreD (update_risk_zones s people sa h w).1.risk_zones (x, y) =
          getScoreD (applyDetections people s.risk_zones) (x, y) + 2)) ∧
    ((update_risk_zones emptyState [] saCritLists 480 640).1.risk_zones.length
        = 108 ∧
      ∀ kv ∈ (update_risk_zones emptyState [] saCritLists 480 640).1.risk_zones,
        kv.2 = 5 ∧ kv.1.1 < 12 ∧ kv.1.2 < 9) := by
  refine ⟨⟨fun ht => ?_, fun ht => ?_⟩, by decide, by decide⟩
  · rw [risk_zones_of_update, getScoreD_applyBroadcast _ _ _ _ _ _ (Or.inr ht)]
    simp [ht, hx, hy]
  · rw [risk_zones_of_update, getScoreD_applyBroadcast _ _ _ _ _ _ (Or.inl ht)]
    simp [ht, hx, hy]

theorem spec_c2_ambient_broadcast_witness :
    (0 < 640 / heatmap_grid_size ∧ 0 < 480 / heatmap_grid_size) ∧
    (threatOf saCritLists = ThreatLevel.CRITICAL →
      getScoreD
          (update_risk_zones emptyState [] saCritLists 480 640).1.risk_zones
          (0, 0) =
        getScoreD (applyDetections [] emptyState.risk_zones) (0, 0) + 5) :=
  ⟨⟨by decide, by decide⟩,
    ((spec_c2_ambient_broadcast emptyState [] saCritLists 480 640 0 0
      (by decide) (by decide)).1).1⟩

/-- Claim C3 is false of the code: `process_frame` rescales bounding boxes
to the display resolution (800 × 600) and passes `display_frame.shape` to
`update_risk_zones`, so the grid key comes from display coordinates.  The
detection below has processing-resolution center (40, 40), i.e. cell
(0, 0), yet the map keys cell (1, 1) (display center (50, 50)). -/
theorem spec_c3_processing_resolution_counterexample :
    gridOf personAt40 = (0, 0) ∧
    getScore (process_frame emptyState
        (some ([personAt40], [], saSafeLists))).risk_zones (0, 0) = none ∧
    getScore (process_frame emptyState
        (some ([personAt40], [], saSafeLists))).risk_zones (1, 1) = some 1 := by
  decide

/-- Claim C3 (amended): grid coordinates in `process_frame` are derived
from the display resolution (800 × 600): each bounding box is rescaled by
5/4 per axis before the risk-zone update keys the cell of its center, and
the ambient-broadcast extent is `800 / cellSize` by `600 / cellSize`
(16 × 12 cells), not the processing-resolution 640 × 480 extent. -/
theorem spec_c3_display_resolution_grid (s : AppState) (sa : SafetyAnalysis)
    (p : Person) (lw sw wd ds : ℕ) (h1 : sa.lone_women = some lw)
    (h2 : sa.surrounded_women = some sw) (h3 : sa.women_in_danger = some wd)
    (h4 : sa.distress_signals = some ds) :
    (threatOf sa = ThreatLevel.SAFE →
      (process_frame s (some ([p], [], sa))).risk_zones =
        addTo s.risk_zones (gridOf (scalePerson p)) (riskOf (scalePerson p))) ∧
    (threatOf sa = ThreatLevel.CRITICAL → ∀ x y,
      x < 800 / heatmap_grid_size → y < 600 / heatmap_grid_size →
      getScoreD (process_frame s (some ([], [], sa))).risk_zones (x, y) =
        getScoreD s.risk_zones (x, y) + 5) := by
  constructor
  · intro ht
    rw [process_frame_some_eq s [p] [] sa lw sw wd ds h1 h2 h3 h4]
    simp [ht, applyBroadcast, applyDetections]
  · intro ht x y hx hy
    rw [process_frame_some_eq s [] [] sa lw sw wd ds h1 h2 h3 h4]
    show getScoreD (applyBroadcast (threatOf sa) 600 800
        (applyDetections (List.map scalePerson []) s.risk_zones)) (x, y) =
      getScoreD s.risk_zones (x, y) + 5
    rw [getScoreD_applyBroadcast _ _ _ _ _ _ (Or.inr ht)]
    simp [ht, hx, hy, applyDetections]

theorem spec_c3_display_resolution_grid_witness :
    saSafeLists.lone_women = some 0 ∧
    (threatOf saSafeLists = ThreatLevel.SAFE →
      (process_frame emptyState
          (some ([personAt40], [], saSafeLists))).risk_zones =
        addTo emptyState.risk_zones (gridOf (scalePerson personAt40))
          (riskOf (scalePerson personAt40))) :=
  ⟨rfl, (spec_c3_display_resolution_grid emptyState saSafeLists personAt40
    0 0 0 0 rfl rfl rfl rfl).1⟩

set_option maxRecDepth 10000 in
/-- Claim C4 is false of the code: the per-frame updates are applied in
place with no rollback, so a failure inside `update_statistics` (here:
`len` raising on a non-list `lone_women` value) leaves the women counter
incremented while the frame counter, risk map, history and alert counter
are untouched — a partial update. -/
theorem spec_c4_atomicity_counterexample :
    (process_frame emptyState
        (some ([personWoman], [], saNoneLone))).total_women_monitored = 1 ∧
    (process_frame emptyState
        (some ([personWoman], [], saNoneLone))).frames_processed = 0 ∧
    (process_frame emptyState
        (some ([personWoman], [], saNoneLone))).risk_zones = [] ∧
    (process_frame emptyState
        (some ([personWoman], [], saNoneLone))).risk_history = [] ∧
    (process_frame emptyState
        (some ([personWoman], [], saNoneLone))).total_safety_alerts = 0 := by
  decide

/-- Claim C4 (amended): failures are caught and processing continues, but
a frame's updates are not transactional: they persist up to the failure
point.  A failure raised by the statistics update (non-list `lone_women`)
leaves exactly the women-monitored increment applied and nothing else,
while a failure before any mutation (decode / analysis / rescaling /
drawing, modeled by `none`) leaves the state unchanged. -/
theorem spec_c4_partial_update (s : AppState) (people weapons : List Person)
    (sa : SafetyAnalysis) (hfail : sa.lone_women = none) :
    ((process_frame s (some (people, weapons, sa))).total_women_monitored =
        s.total_women_monitored +
          ((people.map scalePerson).filter (fun p => p.isWoman)).length ∧
      (process_frame s (some (people, weapons, sa))).frames_processed =
        s.frames_processed ∧
      (process_frame s (some (people, weapons, sa))).risk_zones =
        s.risk_zones ∧
      (process_frame s (some (people, weapons, sa))).risk_history =
        s.risk_history ∧
      (process_frame s (some (people, weapons, sa))).total_safety_alerts =
        s.total_safety_alerts) ∧
    process_frame s none = s := by
  refine ⟨?_, rfl⟩
  have h := update_statistics_none_eq s (people.map scalePerson) sa hfail
  simp only [process_frame, h]
  simp

theorem spec_c4_partial_update_witness :
    saNoneLone.lone_women = none ∧
    (process_frame emptyState
        (some ([personWoman], [], saNoneLone))).total_women_monitored =
      emptyState.total_women_monitored +
        (([personWoman].map scalePerson).filter (fun p => p.isWoman)).length :=
  ⟨rfl, ((spec_c4_partial_update emptyState [personWoman] [] saNoneLone
    rfl).1).1⟩

/-- Claim C5: with the deque capacity 1000 of `risk_history`, after
`1000 + k` appends the history holds exactly the most recent 1000 events
in insertion order (the oldest `k` evicted first), and its length never
exceeds 1000. -/
theorem spec_c5_bounded_history (es : List RiskEvent) (k : ℕ)
    (hlen : es.length = 1000 + k) :
    es.foldl (histAppend 1000) [] = es.drop k ∧
    (es.foldl (histAppend 1000) []).length ≤ 1000 := by
  have h := histRun_eq 1000 (by norm_num) es
  constructor
  · rw [h, hlen, Nat.add_sub_cancel_left]
  · rw [h, List.length_drop]
    omega

theorem spec_c5_bounded_history_witness :
    ((List.range 1001).map (fun i => RiskEvent.mk ThreatLevel.SAFE i 0)).length
        = 1000 + 1 ∧
    ((List.range 1001).map
        (fun i => RiskEvent.mk ThreatLevel.SAFE i 0)).foldl (histAppend 1000) []
      = ((List.range 1001).map (fun i => RiskEvent.mk ThreatLevel.SAFE i 0)).drop 1 :=
  ⟨by simp, (spec_c5_bounded_history _ 1 (by simp)).1⟩

/-- Claim C6 is false of the code at the 0.3 boundary: the first gradient
segment tops out at red `int(255 · 0.3 · 3) = 229` while the second
segment starts at red 255, so the red channel jumps by 26 — far more than
a rounding-level tolerance. -/
theorem spec_c6_boundary_counterexample :
    colorOf (2999 / 10000) = (229, 255, 0) ∧
    colorOf (3001 / 10000) = (255, 254, 0) ∧
    ¬ ((colorOf (3001 / 10000)).1 - (colorOf (2999 / 10000)).1 ≤ 1) := by
  have h1 : colorOf (2999 / 10000) = (229, 255, 0) := by
    norm_num [colorOf, pyInt] <;> rfl
  have h2 : colorOf (3001 / 10000) = (255, 254, 0) := by
    norm_num [colorOf, pyInt] <;> rfl
  refine ⟨h1, h2, ?_⟩
  rw [h1, h2]
  decide

/-- Claim C6 (amended): the gradient is continuous at the 0.7 boundary —
the colors at 0.6999 and 0.7001 differ by at most one level per channel —
but at the 0.3 boundary the red channel jumps from 229 to 255 (a gap of
26 levels) while green moves only 255 → 254. -/
theorem spec_c6_continuity_at_07 :
    (colorOf (6999 / 10000) = (255, 0, 0) ∧
      colorOf (7001 / 10000) = (254, 0, 0) ∧
      (colorOf (6999 / 10000)).1 - (colorOf (7001 / 10000)).1 ≤ 1) ∧
    (colorOf (2999 / 10000) = (229, 255, 0) ∧
      colorOf (3001 / 10000) = (255, 254, 0) ∧
      (colorOf (3001 / 10000)).1 - (colorOf (2999 / 10000)).1 = 26) := by
  have h1 : colorOf (6999 / 10000) = (255, 0, 0) := by
    norm_num [colorOf, pyInt] <;> rfl
  have h2 : colorOf (7001 / 10000) = (254, 0, 0) := by
    norm_num [colorOf, pyInt] <;> rfl
  have h3 : colorOf (2999 / 10000) = (229, 255, 0) := by
    norm_num [colorOf, pyInt] <;> rfl
  have h4 : colorOf (3001 / 10000) = (255, 254, 0) := by
    norm_num [colorOf, pyInt] <;> rfl
  exact ⟨⟨h1, h2, by rw [h1, h2]; decide⟩, ⟨h3, h4, by rw [h3, h4]; decide⟩⟩

/-- Claim C7: for a non-empty risk-zone map (whose scores, as reachable,
are at least 1, so `max` is positive and the Python division is defined)
the renderer computes for every rendered cell a normalized value
`min(score / max, 1.0)` lying in [0, 1]; for an empty map it draws the
"no data" placeholder and returns before any division. -/
theorem spec_c7_normalization (m : List ((ℕ × ℕ) × ℕ))
    (hm : ∀ kv ∈ m, 1 ≤ kv.2) :
    (m = [] → update_heatmap m = HeatmapOutput.noData) ∧
    (m ≠ [] → ∃ l, update_heatmap m = HeatmapOutput.cells l ∧
      ∀ c ∈ l, 0 ≤ c.normalized ∧ c.normalized ≤ 1) := by
  constructor
  · intro h
    subst h
    rfl
  · intro h
    match m, h with
    | kv0 :: rest, _ =>
      refine ⟨_, rfl, ?_⟩
      intro c hc
      rcases List.mem_filterMap.mp hc with ⟨a, ha, hfa⟩
      by_cases hcond : a.1.1 < 20 ∧ a.1.2 < 15
      · rw [if_pos hcond] at hfa
        obtain rfl := Option.some.inj hfa
        constructor
        · exact le_min (div_nonneg (Nat.cast_nonneg _) (Nat.cast_nonneg _))
            zero_le_one
        · exact min_le_right _ _
      · rw [if_neg hcond] at hfa
        exact absurd hfa (by simp)

theorem spec_c7_normalization_witness :
    (∀ kv ∈ ([((0, 0), 2), ((1, 1), 6)] : List ((ℕ × ℕ) × ℕ)), 1 ≤ kv.2) ∧
    (([((0, 0), 2), ((1, 1), 6)] : List ((ℕ × ℕ) × ℕ)) ≠ [] →
      ∃ l, update_heatmap [((0, 0), 2), ((1, 1), 6)] = HeatmapOutput.cells l ∧
        ∀ c ∈ l, 0 ≤ c.normalized ∧ c.normalized ≤ 1) :=
  ⟨by decide, (spec_c7_normalization _ (by decide)).2⟩

/-- Claim C8: the exported `risk_zones` section lists every in-memory map
entry exactly once under its `"<gx>,<gy>"` key (keys are pairwise distinct
because the in-memory keys are), and parsing the keys back recovers
exactly the in-memory map — same key set, same scores. -/
theorem spec_c8_export_roundtrip (m : List ((ℕ × ℕ) × ℕ))
    (hnd : (m.map Prod.fst).Nodup) :
    (exportRiskZones m).map (fun kv => (parseKey kv.1, kv.2)) = m ∧
    ((exportRiskZones m).map Prod.fst).Nodup := by
  constructor
  · simp [exportRiskZones, List.map_map, Function.comp_def, parseKey_keyChars,
      Prod.mk.eta]
  · have hinj : Function.Injective keyChars :=
      Function.LeftInverse.injective parseKey_keyChars
    have hkeys : (exportRiskZones m).map Prod.fst =
        (m.map Prod.fst).map keyChars := by
      simp [exportRiskZones, List.map_map, Function.comp]
    rw [hkeys]
    exact hnd.map hinj

theorem spec_c8_export_roundtrip_witness :
    ((([((1, 23), 5), ((12, 3), 7)] : List ((ℕ × ℕ) × ℕ)).map Prod.fst).Nodup) ∧
    (exportRiskZones [((1, 23), 5), ((12, 3), 7)]).map
        (fun kv => (parseKey kv.1, kv.2)) =
      ([((1, 23), 5), ((12, 3), 7)] : List ((ℕ × ℕ) × ℕ)) :=
  ⟨by decide, (spec_c8_export_roundtrip _ (by decide)).1⟩

/-- Claim C9: the history event written for a frame counts only
lone + surrounded + in-danger women as `safety_alerts` (distress signals
excluded), while the cumulative `total_safety_alerts` counter adds
lone + surrounded + in-danger + distress for the same frame; with a
nonzero distress count the event's alert count is strictly smaller than
the counter's increment. -/
theorem spec_c9_event_vs_counter (s s2 : AppState) (people : List Person)
    (sa : SafetyAnalysis) (hh ww lw sw wd ds : ℕ)
    (h1 : sa.lone_women = some lw) (h2 : sa.surrounded_women = some sw)
    (h3 : sa.women_in_danger = some wd) (h4 : sa.distress_signals = some ds)
    (hds : 0 < ds) :
    (∃ ev, ((update_risk_zones s people sa hh ww).1.risk_history).getLast? =
        some ev ∧
      ev.safety_alerts = lw + sw + wd ∧
      ev.safety_alerts < lw + sw + wd + ds) ∧
    (update_statistics s2 people sa).1.total_safety_alerts =
      s2.total_safety_alerts + (lw + sw + wd + ds) := by
  constructor
  · rw [update_risk_zones_some_eq s people sa hh ww lw sw wd h1 h2 h3]
    refine ⟨{ threat_level := threatOf sa
              women_count := (people.filter (fun p => p.isWoman)).length
              safety_alerts := lw + sw + wd }, ?_, rfl, by simp; omega⟩
    exact histAppend_getLast 1000 _ _
  · rw [update_statistics_some_eq s2 people sa lw sw wd ds h1 h2 h3 h4]

theorem spec_c9_event_vs_counter_witness :
    saDistress.distress_signals = some 4 ∧ 0 < 4 ∧
    (update_statistics emptyState [] saDistress).1.total_safety_alerts =
      emptyState.total_safety_alerts + (1 + 2 + 3 + 4) :=
  ⟨rfl, by decide,
    (spec_c9_event_vs_counter emptyState emptyState [] saDistress 480 640
      1 2 3 4 rfl rfl rfl rfl (by decide)).2⟩

/-- Claim C10: every entry stored in the risk-zone map has score at least
1 — each per-detection contribution is at least 1 and each broadcast
increment is 5 or 2 — and `update_risk_zones` preserves this invariant
(it holds for the empty initial map and after every update, whether or
not the trailing history append succeeds). -/
theorem spec_c10_map_positivity (s : AppState) (people : List Person)
    (sa : SafetyAnalysis) (hh ww : ℕ)
    (hm : ∀ kv ∈ s.risk_zones, 1 ≤ kv.2) :
    ∀ kv ∈ (update_risk_zones s people sa hh ww).1.risk_zones, 1 ≤ kv.2 := by
  rw [risk_zones_of_update]
  have hdet : ∀ kv ∈ applyDetections people s.risk_zones, 1 ≤ kv.2 := by
    rw [applyDetections]
    refine foldl_preserve (fun m => ∀ kv ∈ m, 1 ≤ kv.2) _ ?_ people
      s.risk_zones hm
    intro m p hmp
    refine addTo_pos m (gridOf p) (riskOf p) ?_ hmp
    rw [riskOf]
    split_ifs <;> omega
  rw [applyBroadcast]
  by_cases ht : threatOf sa = ThreatLevel.HIGH ∨ threatOf sa = ThreatLevel.CRITICAL
  · rw [if_pos ht]
    refine foldl_preserve (fun m => ∀ kv ∈ m, 1 ≤ kv.2) _ ?_ _ _ hdet
    intro m x hmx
    refine foldl_preserve (fun m => ∀ kv ∈ m, 1 ≤ kv.2) _ ?_ _ _ hmx
    intro m y hmy
    refine addTo_pos m (x, y) _ ?_ hmy
    split_ifs <;> omega
  · rw [if_neg ht]
    exact hdet

theorem spec_c10_map_positivity_witness :
    (∀ kv ∈ emptyState.risk_zones, 1 ≤ kv.2) ∧
    ∀ kv ∈ (update_risk_zones emptyState [personWoman] saCritLists
        480 640).1.risk_zones, 1 ≤ kv.2 :=
  ⟨by decide,
    spec_c10_map_positivity emptyState [personWoman] saCritLists 480 640
      (by decide)⟩
